import Mathlib

/-!
Shallow embedding of the core of the cld-migrate-assets-in-bulk repository:

* the structured-metadata mapper plugin (`src/unnamed/part_004`, class
  `CloudinaryMetadataMapper`: `validateMapping`, `process`,
  `lookupFieldSchema`, `processMetadataValue`, `lookupMetadataValueExternalId`),
* the legacy mapper shipped as `src/__plugins/cld-structured-metadata-mapper.js`
  (same class, older `process` that also deletes recognised keys from the
  input-fields object),
* the bounded-concurrency main loop (`src/lib/main-loop.js`,
  `loopOverCsvInput_Async`), whose per-record body is embedded literally and
  whose scheduler (`async.mapLimit`) is embedded as a small-step relation
  implementing the documented mapLimit contract: at most `limit` iteratee
  invocations in flight, records pulled lazily in order.

JavaScript built-ins used by the source (`String.prototype.trim`,
`String.prototype.toLowerCase`, `String.prototype.split`, object spread and
keyed assignment) are embedded as executable helper functions below.
`new Date(v).toISOString()` is opaque JS runtime behaviour and is passed in as
a parameter `jsDateToIso : String -> Option String` (`none` models the
RangeError thrown by `toISOString` on an invalid date).
-/

/-- JS `String.prototype.toLowerCase` (ASCII case folding, which is all the
source data uses). -/
def jsToLower (s : String) : String := String.mk (s.toList.map Char.toLower)

/-- Character-list helper for `jsTrim`: drop whitespace at both ends. -/
def trimChars (l : List Char) : List Char :=
  ((l.dropWhile Char.isWhitespace).reverse.dropWhile Char.isWhitespace).reverse

/-- JS `String.prototype.trim`. -/
def jsTrim (s : String) : String := String.mk (trimChars s.toList)

/-- Auxiliary state-passing splitter for `jsSplit`. -/
def jsSplitAux (sep : Char) : List Char → List Char → List String
  | [], acc => [String.mk acc.reverse]
  | c :: rest, acc =>
    if c = sep then String.mk acc.reverse :: jsSplitAux sep rest []
    else jsSplitAux sep rest (c :: acc)

/-- JS `String.prototype.split` with a one-character separator: keeps empty
parts, and `"".split(sep)` is `[""]`, exactly as in JS. -/
def jsSplit (s : String) (sep : Char) : List String := jsSplitAux sep s.toList []

/-- A JS object whose values are strings (a CSV record / `input_fields`):
an ordered association list keyed by the first occurrence of a key. -/
abbrev Fields := List (String × String)

/-- JS property read `obj[key]`: the value at the first matching key,
`none` for `undefined`. -/
def jsGet (fields : Fields) (k : String) : Option String :=
  (fields.find? (fun kv => kv.1 == k)).map (fun kv => kv.2)

/-- JS `key in obj`. -/
def jsHasKey (fields : Fields) (k : String) : Bool :=
  (fields.find? (fun kv => kv.1 == k)).isSome

/-- JS `Array.prototype.map` over a callback that may throw: evaluates left to
right and propagates the first exception. -/
def mapExcept (f : α → Except ε β) : List α → Except ε (List β)
  | [] => .ok []
  | x :: xs =>
    match f x with
    | .error e => .error e
    | .ok y =>
      match mapExcept f xs with
      | .error e => .error e
      | .ok ys => .ok (y :: ys)

/-- One entry of a select field datasource (`fieldSchema.datasource.values[i]`):
canonical identifier, human label (`value`), active/inactive `state`. -/
structure DatasourceValue where
  external_id : String
  value : String
  state : String
deriving DecidableEq

/-- One structured-metadata field definition as returned by
`cloudinary.api.list_metadata_fields` (the fields the source reads:
`type`, `external_id`, `label`, `datasource.values`; non-select fields
carry an empty datasource). -/
structure MetadataField where
  type : String
  external_id : String
  label : String
  datasource : List DatasourceValue
deriving DecidableEq

/-- A processed metadata value: a string (text/number/date/enum) or a list of
canonical identifiers (set). -/
inductive MetadataValue where
  | str (s : String)
  | list (l : List String)
deriving DecidableEq

/-- A JS object holding processed metadata values, keyed by field external id. -/
abbrev Metadata := List (String × MetadataValue)

/-- JS keyed assignment `obj[k] = v`: overwrite in place if the key exists,
append otherwise (insertion order preserved). -/
def jsObjectSet : Metadata → String → MetadataValue → Metadata
  | [], k, v => [(k, v)]
  | (k', v') :: rest, k, v =>
    if k' = k then (k, v) :: rest else (k', v') :: jsObjectSet rest k v

/-- The Cloudinary upload options object built by `__input-to-api-payload.js`:
the mapper reads and writes only its `metadata` region (`none` models an
absent `metadata` property). -/
structure UploadOptions where
  public_id : String
  tags : String
  metadata : Option Metadata
deriving DecidableEq

/-- Errors raised by the `part_004` mapper. Messages are carried as structured
data instead of interpolated strings; `jsError` stands for a generic runtime
error (`RangeError` from `toISOString`, the unsupported-field-type `Error`,
or the `TypeError` from reading a property of `undefined`).
`failedToProcessMetadataValue` keeps its wrapped cause. -/
inductive MapperError where
  | notInitialized
  | invalidMappingRequired
  | duplicateExternalId (id : String)
  | csvColumnNotFound (column : String)
  | externalIdNotFound (id : String)
  | invalidDataSourceOption (option : String) (field : String)
  | failedToProcessMetadataValue (value : String) (field : String) (cause : MapperError)
  | jsError (info : String)
deriving DecidableEq

/-- `part_004` `#lookupMetadataValueExternalId`: two passes over the
datasource, first matching canonical identifiers, then labels; only `active`
options are eligible; comparisons are on the trimmed, lower-cased option. -/
def lookupMetadataValueExternalId (fieldSchema : MetadataField) (option : String) :
    Except MapperError String :=
  match fieldSchema.datasource.find?
      (fun v => v.state == "active" && jsToLower v.external_id == jsToLower (jsTrim option)) with
  | some v => .ok v.external_id
  | none =>
    match fieldSchema.datasource.find?
        (fun v => v.state == "active" && jsToLower v.value == jsToLower (jsTrim option)) with
    | some v => .ok v.external_id
    | none => .error (.invalidDataSourceOption (jsTrim option) fieldSchema.external_id)

/-- `part_004` `#lookupFieldSchema`: exact match on `external_id`. -/
def lookupFieldSchema (structureFields : List MetadataField) (externalId : String) :
    Option MetadataField :=
  structureFields.find? (fun field => field.external_id == externalId)

/-- `part_004` `#processMetadataValue`: dispatch on the field type.
`set` splits on the hardcoded comma; `date` goes through the JS `Date`
round-trip (`jsDateToIso`); `enum` resolves one option; `integer` and
`string` pass the value through; anything else throws. -/
def processMetadataValue (jsDateToIso : String → Option String)
    (fieldSchema : MetadataField) (value : String) : Except MapperError MetadataValue :=
  if fieldSchema.type = "set" then
    match mapExcept (fun item => lookupMetadataValueExternalId fieldSchema item)
        (jsSplit value ',') with
    | .ok l => .ok (.list l)
    | .error e => .error e
  else if fieldSchema.type = "date" then
    match jsDateToIso value with
    | some d => .ok (.str d)
    | none => .error (.jsError "Invalid time value")
  else if fieldSchema.type = "enum" then
    match lookupMetadataValueExternalId fieldSchema value with
    | .ok v => .ok (.str v)
    | .error e => .error e
  else if fieldSchema.type = "integer" ∨ fieldSchema.type = "string" then
    .ok (.str value)
  else
    .error (.jsError "Field type not found")

/-- The options object handed to `process` by `__input-to-api-payload.js`:
a `mapping` from CSV column names to field external ids and an optional
multi-value `separator`. `part_004`'s `process` reads only `options.mapping`;
the `separator` property is carried here because callers pass it, and the
embedding (like the source) never consults it. -/
structure ProcessOptions where
  mapping : Option (List (String × String))
  separator : Option String
deriving DecidableEq

/-- First duplicate external id in mapping iteration order
(the JS `Set`-based duplicate scan in `#validateMapping`). -/
def firstDuplicateExternalId : List (String × String) → List String → Option String
  | [], _ => none
  | (_, extId) :: rest, seen =>
    if seen.contains extId then some extId
    else firstDuplicateExternalId rest (extId :: seen)

/-- First CSV column of the mapping that is not a key of the input fields. -/
def firstMissingColumn (mapping : List (String × String)) (input_fields : Fields) :
    Option String :=
  (mapping.find? (fun kv => !jsHasKey input_fields kv.1)).map (fun kv => kv.1)

/-- First mapping target external id that does not exist in the metadata
structure. -/
def firstUnknownExternalId (structureFields : List MetadataField)
    (mapping : List (String × String)) : Option String :=
  (mapping.find? (fun kv => !structureFields.any (fun f => f.external_id == kv.2))).map
    (fun kv => kv.2)

/-- `part_004` `#validateMapping`, in source order: duplicate-target scan,
missing-column scan, then the `this.metadata_structure` getter access (which
throws `NotInitializedError` when `init` has not run) followed by the
unknown-external-id scan. On success it returns the metadata structure the
getter produced. The JS `typeof mapping !== 'object'` branch is
unrepresentable here because the embedding types `mapping` as a map. -/
def validateMapping (structureFields? : Option (List MetadataField))
    (mapping : List (String × String)) (input_fields : Fields) :
    Except MapperError (List MetadataField) :=
  match firstDuplicateExternalId mapping [] with
  | some dup => .error (.duplicateExternalId dup)
  | none =>
    match firstMissingColumn mapping input_fields with
    | some c => .error (.csvColumnNotFound c)
    | none =>
      match structureFields? with
      | none => .error .notInitialized
      | some structureFields =>
        match firstUnknownExternalId structureFields mapping with
        | some extId => .error (.externalIdNotFound extId)
        | none => .ok structureFields

/-- The per-pair loop of `part_004` `process`: skip pairs whose source value
is absent or blank after trimming, look up the field schema, process the
value (rethrowing `InvalidDataSourceOptionError` as-is and wrapping anything
else in `FailedToProcessMetadataValueError`), and assign into the local
`metadata` object. -/
def processPairs (structureFields : List MetadataField)
    (jsDateToIso : String → Option String) (input_fields : Fields) :
    List (String × String) → Metadata → Except MapperError Metadata
  | [], metadata => .ok metadata
  | (csvColumn, externalId) :: rest, metadata =>
    match jsGet input_fields csvColumn with
    | none => processPairs structureFields jsDateToIso input_fields rest metadata
    | some raw =>
      let value := jsTrim raw
      if value = "" then processPairs structureFields jsDateToIso input_fields rest metadata
      else
        match lookupFieldSchema structureFields externalId with
        | none =>
          .error (.failedToProcessMetadataValue value externalId (.jsError "TypeError"))
        | some schema =>
          match processMetadataValue jsDateToIso schema value with
          | .ok v =>
            processPairs structureFields jsDateToIso input_fields rest
              (jsObjectSet metadata externalId v)
          | .error (.invalidDataSourceOption o f) => .error (.invalidDataSourceOption o f)
          | .error e => .error (.failedToProcessMetadataValue value externalId e)

/-- `part_004` `process`. The source mutates `upload_options` in place and
throws on failure; the embedding passes the payload state explicitly: a
success returns the payload after the final `upload_options.metadata`
assignment, an error carries the payload exactly as it stood when the
exception left `process` (so mutation-freedom on the failure path is a
provable statement, not an artifact of the embedding). -/
def process (structureFields? : Option (List MetadataField))
    (jsDateToIso : String → Option String) (upload_options : UploadOptions)
    (input_fields : Fields) (options : Option ProcessOptions) :
    Except (MapperError × UploadOptions) UploadOptions :=
  match options with
  | none => .error (.invalidMappingRequired, upload_options)
  | some opts =>
    match opts.mapping with
    | none => .error (.invalidMappingRequired, upload_options)
    | some mapping =>
      match validateMapping structureFields? mapping input_fields with
      | .error e => .error (e, upload_options)
      | .ok structureFields =>
        match processPairs structureFields jsDateToIso input_fields mapping
            (upload_options.metadata.getD []) with
        | .error e => .error (e, upload_options)
        | .ok metadata =>
          if metadata.length > 0 then .ok { upload_options with metadata := some metadata }
          else .ok upload_options

namespace LegacyMapper

/-- Errors thrown by the legacy `src/__plugins/cld-structured-metadata-mapper.js`
mapper (plain `Error` objects in the source, distinguished here by site). -/
inductive LegacyError where
  | notInitialized
  | fieldValueNotFound (option : String) (field : String)
  | fieldTypeNotFound (ftype : String) (field : String)
  | dateError
deriving DecidableEq

/-- Legacy `#lookupFieldSchema`: match the CSV column name against field
`external_id` first, then against field `label`, both trimmed and
case-insensitive; `none` when the column names no known field. -/
def lookupFieldSchema (structureFields : List MetadataField) (fieldName : String) :
    Option MetadataField :=
  match structureFields.find?
      (fun f => jsToLower (jsTrim f.external_id) == jsToLower (jsTrim fieldName)) with
  | some f => some f
  | none =>
    structureFields.find?
      (fun f => jsToLower (jsTrim f.label) == jsToLower (jsTrim fieldName))

/-- Legacy `#lookupMetadataValueExternalId`: identical two-pass datasource
resolution (the source spells `&&` as `&`, which coerces the two booleans and
produces the same truth table). -/
def lookupMetadataValueExternalId (fieldSchema : MetadataField) (option : String) :
    Except LegacyError String :=
  match fieldSchema.datasource.find?
      (fun v => v.state == "active" && jsToLower v.external_id == jsToLower (jsTrim option)) with
  | some v => .ok v.external_id
  | none =>
    match fieldSchema.datasource.find?
        (fun v => v.state == "active" && jsToLower v.value == jsToLower (jsTrim option)) with
    | some v => .ok v.external_id
    | none => .error (.fieldValueNotFound (jsTrim option) fieldSchema.external_id)

/-- Legacy `#processMetadataValue` (same dispatch as `part_004`, legacy error
types). -/
def processMetadataValue (jsDateToIso : String → Option String)
    (fieldSchema : MetadataField) (value : String) : Except LegacyError MetadataValue :=
  if fieldSchema.type = "set" then
    match mapExcept (fun item => lookupMetadataValueExternalId fieldSchema item)
        (jsSplit value ',') with
    | .ok l => .ok (.list l)
    | .error e => .error e
  else if fieldSchema.type = "date" then
    match jsDateToIso value with
    | some d => .ok (.str d)
    | none => .error .dateError
  else if fieldSchema.type = "enum" then
    match lookupMetadataValueExternalId fieldSchema value with
    | .ok v => .ok (.str v)
    | .error e => .error e
  else if fieldSchema.type = "integer" ∨ fieldSchema.type = "string" then
    .ok (.str value)
  else
    .error (.fieldTypeNotFound fieldSchema.type fieldSchema.external_id)

/-- The `for (const key in input_fields)` loop of the legacy `process`.
`remaining_fields` aliases `input_fields` in the source, so
`delete remaining_fields[key]` mutates the input record: the loop removes
every non-ignored key for which a field schema was found (even when the
value is blank) and keeps every other key. Returns the metadata object and
the surviving input fields. -/
def processFields (structureFields? : Option (List MetadataField))
    (jsDateToIso : String → Option String) (fieldsToIgnore : List String) :
    Fields → Metadata → Except LegacyError (Metadata × Fields)
  | [], metadataObject => .ok (metadataObject, [])
  | (key, value) :: rest, metadataObject =>
    if fieldsToIgnore.contains key then
      match processFields structureFields? jsDateToIso fieldsToIgnore rest metadataObject with
      | .error e => .error e
      | .ok (m, fs) => .ok (m, (key, value) :: fs)
    else
      match structureFields? with
      | none => .error .notInitialized
      | some structureFields =>
        match lookupFieldSchema structureFields key with
        | none =>
          match processFields structureFields? jsDateToIso fieldsToIgnore rest metadataObject with
          | .error e => .error e
          | .ok (m, fs) => .ok (m, (key, value) :: fs)
        | some fieldSchema =>
          if jsTrim value ≠ "" then
            match processMetadataValue jsDateToIso fieldSchema value with
            | .error e => .error e
            | .ok v =>
              processFields structureFields? jsDateToIso fieldsToIgnore rest
                (jsObjectSet metadataObject fieldSchema.external_id v)
          else
            processFields structureFields? jsDateToIso fieldsToIgnore rest metadataObject

/-- Legacy `process`: no mapping validation; iterates the input-fields object,
deleting recognised keys from it as it goes, and finally assigns
`upload_options.metadata` when the accumulated object is non-empty. A success
returns the updated upload options together with the mutated input fields. -/
def process (structureFields? : Option (List MetadataField))
    (jsDateToIso : String → Option String) (upload_options : UploadOptions)
    (input_fields : Fields) (fieldsToIgnore : List String) :
    Except LegacyError (UploadOptions × Fields) :=
  match processFields structureFields? jsDateToIso fieldsToIgnore input_fields
      (upload_options.metadata.getD []) with
  | .error e => .error e
  | .ok (metadataObject, remaining_fields) =>
    if metadataObject.length > 0 then
      .ok ({ upload_options with metadata := some metadataObject }, remaining_fields)
    else
      .ok (upload_options, remaining_fields)

end LegacyMapper

/-- Run statistics of `loopOverCsvInput_Async` (`const stats = {...}`), as JS
numbers (integers here, so that non-negativity of `concurrent` is a real
statement). -/
structure RunStats where
  concurrent : Int
  attempted : Int
  succeeded : Int
  failed : Int
deriving DecidableEq

/-- Where a record currently is inside the `async.mapLimit` iteratee of
`loopOverCsvInput_Async`: suspended on `await input2ApiPayload_Async(input)`,
or suspended on `await payloadModule.payloadFunc_Async(payload)` with the
built payload and plugin trace in scope. -/
inductive TaskPhase (P T : Type) where
  | building
  | invoking (payload : P) (plugins_trace : T)
deriving DecidableEq

/-- One in-flight iteratee invocation. -/
structure InFlight (I P T : Type) where
  input : I
  phase : TaskPhase P T
deriving DecidableEq

/-- The structured record written by `logging.payload.info({input, payload,
response, summary, plugins_trace})`: one durable outcome per record, with
`summary.status` and `summary.err` inlined. -/
structure OutcomeRecord (I P R T E : Type) where
  input : I
  payload : Option P
  response : Option R
  status : String
  err : Option E
  plugins_trace : Option T
deriving DecidableEq

/-- Global state of one run of the main loop: records not yet pulled from the
CSV generator, iteratee invocations in flight, the shared `stats` object, and
the append-only payload log (the Recorder). -/
structure LoopState (I P R T E : Type) where
  pending : List I
  running : List (InFlight I P T)
  stats : RunStats
  log : List (OutcomeRecord I P R T E)
deriving DecidableEq

/-- Small-step semantics of `await async.mapLimit(gen, maxConcurrentUploads,
iteratee)` over the iteratee body of `loopOverCsvInput_Async` (lines 86-109).
`build` is `input2ApiPayload_Async`, `invoke` is `payloadFunc_Async`; both are
deterministic oracles that either return or throw. Each constructor is one
synchronous JS segment between suspension points:

* `spawn` — mapLimit pulls the next record when fewer than `limit` iteratee
  calls are in flight, and the iteratee runs `stats.concurrent += 1;
  stats.attempted += 1` before suspending on the payload build;
* `buildOk`/`buildErr` — the build settles: on success the task suspends on
  the remote invocation, on throw the catch block records the failure and the
  finally block writes the outcome record and frees the slot;
* `invokeOk`/`invokeErr` — the remote invocation settles and the
  catch/finally blocks run likewise.

In every completion step the outcome record is appended before
`stats.concurrent -= 1` frees the slot, as in the source `finally`. -/
inductive LoopStep {I P R T E : Type} (build : I → Except E (P × T))
    (invoke : P → Except E R) (limit : Nat) :
    LoopState I P R T E → LoopState I P R T E → Prop where
  | spawn (x : I) (pending : List I) (running : List (InFlight I P T))
      (stats : RunStats) (log : List (OutcomeRecord I P R T E))
      (hslot : running.length < limit) :
      LoopStep build invoke limit
        ⟨x :: pending, running, stats, log⟩
        ⟨pending, running ++ [⟨x, .building⟩],
         { stats with concurrent := stats.concurrent + 1,
                      attempted := stats.attempted + 1 }, log⟩
  | buildOk (x : I) (p : P) (t : T) (pending : List I)
      (l₁ l₂ : List (InFlight I P T)) (stats : RunStats)
      (log : List (OutcomeRecord I P R T E)) (hbuild : build x = .ok (p, t)) :
      LoopStep build invoke limit
        ⟨pending, l₁ ++ ⟨x, .building⟩ :: l₂, stats, log⟩
        ⟨pending, l₁ ++ ⟨x, .invoking p t⟩ :: l₂, stats, log⟩
  | buildErr (x : I) (e : E) (pending : List I)
      (l₁ l₂ : List (InFlight I P T)) (stats : RunStats)
      (log : List (OutcomeRecord I P R T E)) (hbuild : build x = .error e) :
      LoopStep build invoke limit
        ⟨pending, l₁ ++ ⟨x, .building⟩ :: l₂, stats, log⟩
        ⟨pending, l₁ ++ l₂,
         { stats with failed := stats.failed + 1,
                      concurrent := stats.concurrent - 1 },
         log ++ [⟨x, none, none, "FAILED", some e, none⟩]⟩
  | invokeOk (x : I) (p : P) (t : T) (r : R) (pending : List I)
      (l₁ l₂ : List (InFlight I P T)) (stats : RunStats)
      (log : List (OutcomeRecord I P R T E)) (hinvoke : invoke p = .ok r) :
      LoopStep build invoke limit
        ⟨pending, l₁ ++ ⟨x, .invoking p t⟩ :: l₂, stats, log⟩
        ⟨pending, l₁ ++ l₂,
         { stats with succeeded := stats.succeeded + 1,
                      concurrent := stats.concurrent - 1 },
         log ++ [⟨x, some p, some r, "MIGRATED", none, some t⟩]⟩
  | invokeErr (x : I) (p : P) (t : T) (e : E) (pending : List I)
      (l₁ l₂ : List (InFlight I P T)) (stats : RunStats)
      (log : List (OutcomeRecord I P R T E)) (hinvoke : invoke p = .error e) :
      LoopStep build invoke limit
        ⟨pending, l₁ ++ ⟨x, .invoking p t⟩ :: l₂, stats, log⟩
        ⟨pending, l₁ ++ l₂,
         { stats with failed := stats.failed + 1,
                      concurrent := stats.concurrent - 1 },
         log ++ [⟨x, some p, none, "FAILED", some e, some t⟩]⟩

/-- `const stats = { concurrent: 0, attempted: 0, succeeded: 0, failed: 0 }`. -/
def initStats : RunStats := ⟨0, 0, 0, 0⟩

/-- State at the start of the mapLimit call: the whole CSV pending, nothing in
flight, zeroed stats, empty log. -/
def initState {I P R T E : Type} (inputs : List I) : LoopState I P R T E :=
  ⟨inputs, [], initStats, []⟩

/-- States a run over `inputs` can reach. -/
def Reachable {I P R T E : Type} (build : I → Except E (P × T))
    (invoke : P → Except E R) (limit : Nat) (inputs : List I)
    (s : LoopState I P R T E) : Prop :=
  Relation.ReflTransGen (LoopStep build invoke limit) (initState inputs) s

/-- The mapLimit promise has resolved: the generator is exhausted and no
iteratee call is in flight. -/
def Completed {I P R T E : Type} (s : LoopState I P R T E) : Prop :=
  s.pending = [] ∧ s.running = []

/-- The outcome record the iteratee body deterministically produces for one
input, as a function of the two oracles. -/
def outcomeOf {I P R T E : Type} (build : I → Except E (P × T))
    (invoke : P → Except E R) (x : I) : OutcomeRecord I P R T E :=
  match build x with
  | .error e => ⟨x, none, none, "FAILED", some e, none⟩
  | .ok (p, t) =>
    match invoke p with
    | .ok r => ⟨x, some p, some r, "MIGRATED", none, some t⟩
    | .error e => ⟨x, some p, none, "FAILED", some e, some t⟩

/-- Net effect of one fully processed record on the stats object. -/
def statsStep {I P R T E : Type} (build : I → Except E (P × T))
    (invoke : P → Except E R) (stats : RunStats) (x : I) : RunStats :=
  match build x with
  | .error _ =>
    { stats with attempted := stats.attempted + 1, failed := stats.failed + 1 }
  | .ok (p, _) =>
    match invoke p with
    | .ok _ =>
      { stats with attempted := stats.attempted + 1, succeeded := stats.succeeded + 1 }
    | .error _ =>
      { stats with attempted := stats.attempted + 1, failed := stats.failed + 1 }

/-- The completed state reached by the strictly sequential schedule (records
processed one at a time, in input order). -/
def seqFinalState {I P R T E : Type} (build : I → Except E (P × T))
    (invoke : P → Except E R) (inputs : List I) : LoopState I P R T E :=
  ⟨[], [], inputs.foldl (statsStep build invoke) initStats,
   inputs.map (outcomeOf build invoke)⟩

/-- The structured-metadata structure used by the repository's own plugin
tests (`MOCK_SMD_STRUCTURE`): a multi-select, a single-select, a date, a
number and a text field. -/
def mockMetadataStructure : List MetadataField :=
  [⟨"set", "smd_msl", "SMD MSL",
    [⟨"msl_option_a", "MSL Option A", "active"⟩,
     ⟨"msl_option_b", "MSL Option B", "active"⟩,
     ⟨"msl_option_c", "MSL Option C", "active"⟩]⟩,
   ⟨"enum", "smd_ssl", "SMD SSL",
    [⟨"ssl_option_a", "SSL Option A", "active"⟩,
     ⟨"ssl_option_b", "SSL Option B", "active"⟩,
     ⟨"ssl_option_c", "SSL Option C", "active"⟩]⟩,
   ⟨"date", "smd_date", "SMD Date", []⟩,
   ⟨"integer", "smd_number", "SMD Number", []⟩,
   ⟨"string", "smd_text", "SMD Text", []⟩]

/-- The `smd_ssl` single-select field of the mock structure. -/
def mockSslField : MetadataField :=
  ⟨"enum", "smd_ssl", "SMD SSL",
   [⟨"ssl_option_a", "SSL Option A", "active"⟩,
    ⟨"ssl_option_b", "SSL Option B", "active"⟩,
    ⟨"ssl_option_c", "SSL Option C", "active"⟩]⟩

/-- The `smd_msl` multi-select field of the mock structure. -/
def mockMslField : MetadataField :=
  ⟨"set", "smd_msl", "SMD MSL",
   [⟨"msl_option_a", "MSL Option A", "active"⟩,
    ⟨"msl_option_b", "MSL Option B", "active"⟩,
    ⟨"msl_option_c", "MSL Option C", "active"⟩]⟩

/-- A syntactically well-formed select field whose two active options share
one label: canonical identifiers are unique (the schema invariant) but the
label `Same` is ambiguous. -/
def dupLabelField : MetadataField :=
  ⟨"enum", "smd_dup", "SMD Dup",
   [⟨"opt_a", "Same", "active"⟩,
    ⟨"opt_b", "Same", "active"⟩]⟩

/-- A date parser stub for scenarios that never reach a date field. -/
def noDate : String → Option String := fun _ => none

/-- An upload options fixture carrying pre-existing metadata, so that
clobbering it would be visible. -/
def uoFixture : UploadOptions :=
  ⟨"sample_public_id", "tag_a", some [("existing_field", .str "existing_value")]⟩

/-- Concrete payload builder oracle for engine scenarios: always succeeds,
payload and trace derived from the record. -/
def demoBuild : String → Except String (String × String) :=
  fun x => .ok (x, "trace")

/-- Concrete remote operation oracle: always succeeds. -/
def demoInvoke : String → Except String String :=
  fun _ => .ok "uploaded"

/-- Concrete payload builder oracle that fails on every record. -/
def failingBuild : String → Except String (String × String) :=
  fun _ => .error "boom"

/-- Inductive invariant of the main loop, tying every reachable state to the
input sequence and the two oracles:

1. pending, in-flight and logged records together are exactly the input
   sequence (as a multiset — no record is dropped or duplicated);
2. never more than `limit` iteratee calls in flight;
3. `stats.concurrent` counts exactly the in-flight calls;
4. `stats.attempted` counts pulled records (in flight plus logged);
5. `stats.succeeded + stats.failed` counts logged outcomes;
6. a task suspended on the remote invocation holds the payload and trace its
   record's build actually produced;
7. every logged outcome is exactly the outcome the iteratee body computes for
   its record. -/
def LoopInv {I P R T E : Type} (build : I → Except E (P × T))
    (invoke : P → Except E R) (limit : Nat) (inputs : List I)
    (s : LoopState I P R T E) : Prop :=
  ((s.pending ++ s.running.map InFlight.input ++ s.log.map OutcomeRecord.input :
      List I) : Multiset I) = (inputs : Multiset I)
  ∧ s.running.length ≤ limit
  ∧ s.stats.concurrent = s.running.length
  ∧ s.stats.attempted = (s.running.length : Int) + s.log.length
  ∧ s.stats.succeeded + s.stats.failed = (s.log.length : Int)
  ∧ (∀ task ∈ s.running, ∀ p t, task.phase = .invoking p t → build task.input = .ok (p, t))
  ∧ (∀ o ∈ s.log, o = outcomeOf build invoke o.input)

/-! Helper lemmas. -/

/-- Pulling a record from the head of the pending list into the in-flight list
is a permutation. -/
theorem perm_pull {α : Type} (x : α) (p r g : List α) :
    (p ++ (r ++ [x]) ++ g).Perm (x :: (p ++ r ++ g)) := by
  have h1 : p ++ (r ++ [x]) ++ g = (p ++ r) ++ x :: g := by simp
  rw [h1]
  exact List.perm_middle

/-- Retiring an in-flight record to the end of the log is a permutation. -/
theorem perm_retire {α : Type} (x : α) (p l1 l2 g : List α) :
    (p ++ (l1 ++ l2) ++ (g ++ [x])).Perm (p ++ (l1 ++ x :: l2) ++ g) := by
  have h1 : p ++ (l1 ++ l2) ++ (g ++ [x]) = (p ++ (l1 ++ l2) ++ g) ++ [x] := by simp
  have h2 : (p ++ (l1 ++ x :: l2) ++ g).Perm (x :: (p ++ (l1 ++ l2) ++ g)) := by
    refine ((List.perm_middle.append_left p).append_right g).trans ?_
    simp
  rw [h1]
  exact (List.perm_append_singleton x _).trans h2.symm

/-- The invariant holds initially. -/
theorem loopInv_init {I P R T E : Type} (build : I → Except E (P × T))
    (invoke : P → Except E R) (limit : Nat) (inputs : List I) :
    LoopInv build invoke limit inputs (initState inputs) := by
  refine ⟨by simp [initState], by simp [initState], ?_, ?_, ?_, ?_, ?_⟩ <;>
    simp [initState, initStats]

/-- The invariant is preserved by every step. -/
theorem loopInv_step {I P R T E : Type} {build : I → Except E (P × T)}
    {invoke : P → Except E R} {limit : Nat} {inputs : List I}
    {s s' : LoopState I P R T E} (hinv : LoopInv build invoke limit inputs s)
    (hstep : LoopStep build invoke limit s s') :
    LoopInv build invoke limit inputs s' := by
  obtain ⟨h1, h2, h3, h4, h5, h6, h7⟩ := hinv
  cases hstep with
  | spawn x pending running stats log hslot =>
    refine ⟨?_, ?_, ?_, ?_, ?_, ?_, ?_⟩
    · simp only [List.map_append, List.map_cons, List.map_nil] at h1 ⊢
      rw [← h1]
      exact Multiset.coe_eq_coe.mpr (perm_pull x pending (running.map InFlight.input)
        (log.map OutcomeRecord.input))
    · simp only [List.length_append, List.length_cons, List.length_nil] at h2 ⊢
      omega
    · simp only [List.length_append, List.length_cons, List.length_nil] at h3 ⊢
      push_cast at h3 ⊢
      omega
    · simp only [List.length_append, List.length_cons, List.length_nil] at h4 ⊢
      push_cast at h4 ⊢
      omega
    · exact h5
    · intro task htask p t hph
      rcases List.mem_append.mp htask with hmem | hmem
      · exact h6 task hmem p t hph
      · rcases List.mem_singleton.mp hmem with rfl
        simp at hph
    · exact h7
  | buildOk x p t pending l1 l2 stats log hbuild =>
    refine ⟨?_, ?_, h3.trans ?_, ?_, h5, ?_, h7⟩
    · simp only [List.map_append, List.map_cons] at h1 ⊢
      exact h1
    · simp only [List.length_append, List.length_cons] at h2 ⊢
      omega
    · simp
    · simp only [List.length_append, List.length_cons] at h4 ⊢
      exact h4
    · intro task htask p' t' hph
      rcases List.mem_append.mp htask with hmem | hmem
      · exact h6 task (List.mem_append_left _ hmem) p' t' hph
      · rcases List.mem_cons.mp hmem with rfl | hmem
        · simp only [TaskPhase.invoking.injEq] at hph
          rcases hph with ⟨rfl, rfl⟩
          exact hbuild
        · exact h6 task (List.mem_append_right _ (List.mem_cons_of_mem _ hmem)) p' t' hph
  | buildErr x e pending l1 l2 stats log hbuild =>
    refine ⟨?_, ?_, ?_, ?_, ?_, ?_, ?_⟩
    · simp only [List.map_append, List.map_cons, List.map_nil] at h1 ⊢
      rw [← h1]
      exact Multiset.coe_eq_coe.mpr (perm_retire x pending (l1.map InFlight.input)
        (l2.map InFlight.input) (log.map OutcomeRecord.input))
    · simp only [List.length_append, List.length_cons] at h2 ⊢
      omega
    · simp only [List.length_append, List.length_cons] at h3 ⊢
      push_cast at h3 ⊢
      omega
    · simp only [List.length_append, List.length_cons, List.length_nil] at h4 ⊢
      push_cast at h4 ⊢
      omega
    · simp only [List.length_append, List.length_cons, List.length_nil] at h5 ⊢
      push_cast at h5 ⊢
      omega
    · intro task htask p' t' hph
      rcases List.mem_append.mp htask with hmem | hmem
      · exact h6 task (List.mem_append_left _ hmem) p' t' hph
      · exact h6 task (List.mem_append_right _ (List.mem_cons_of_mem _ hmem)) p' t' hph
    · intro o ho
      rcases List.mem_append.mp ho with hmem | hmem
      · exact h7 o hmem
      · rcases List.mem_singleton.mp hmem with rfl
        simp [outcomeOf, hbuild]
  | invokeOk x p t r pending l1 l2 stats log hinvoke =>
    have hbuild : build x = .ok (p, t) :=
      h6 ⟨x, .invoking p t⟩ (by simp) p t rfl
    refine ⟨?_, ?_, ?_, ?_, ?_, ?_, ?_⟩
    · simp only [List.map_append, List.map_cons, List.map_nil] at h1 ⊢
      rw [← h1]
      exact Multiset.coe_eq_coe.mpr (perm_retire x pending (l1.map InFlight.input)
        (l2.map InFlight.input) (log.map OutcomeRecord.input))
    · simp only [List.length_append, List.length_cons] at h2 ⊢
      omega
    · simp only [List.length_append, List.length_cons] at h3 ⊢
      push_cast at h3 ⊢
      omega
    · simp only [List.length_append, List.length_cons, List.length_nil] at h4 ⊢
      push_cast at h4 ⊢
      omega
    · simp only [List.length_append, List.length_cons, List.length_nil] at h5 ⊢
      push_cast at h5 ⊢
      omega
    · intro task htask p' t' hph
      rcases List.mem_append.mp htask with hmem | hmem
      · exact h6 task (List.mem_append_left _ hmem) p' t' hph
      · exact h6 task (List.mem_append_right _ (List.mem_cons_of_mem _ hmem)) p' t' hph
    · intro o ho
      rcases List.mem_append.mp ho with hmem | hmem
      · exact h7 o hmem
      · rcases List.mem_singleton.mp hmem with rfl
        simp [outcomeOf, hbuild, hinvoke]
  | invokeErr x p t e pending l1 l2 stats log hinvoke =>
    have hbuild : build x = .ok (p, t) :=
      h6 ⟨x, .invoking p t⟩ (by simp) p t rfl
    refine ⟨?_, ?_, ?_, ?_, ?_, ?_, ?_⟩
    · simp only [List.map_append, List.map_cons, List.map_nil] at h1 ⊢
      rw [← h1]
      exact Multiset.coe_eq_coe.mpr (perm_retire x pending (l1.map InFlight.input)
        (l2.map InFlight.input) (log.map OutcomeRecord.input))
    · simp only [List.length_append, List.length_cons] at h2 ⊢
      omega
    · simp only [List.length_append, List.length_cons] at h3 ⊢
      push_cast at h3 ⊢
      omega
    · simp only [List.length_append, List.length_cons, List.length_nil] at h4 ⊢
      push_cast at h4 ⊢
      omega
    · simp only [List.length_append, List.length_cons, List.length_nil] at h5 ⊢
      push_cast at h5 ⊢
      omega
    · intro task htask p' t' hph
      rcases List.mem_append.mp htask with hmem | hmem
      · exact h6 task (List.mem_append_left _ hmem) p' t' hph
      · exact h6 task (List.mem_append_right _ (List.mem_cons_of_mem _ hmem)) p' t' hph
    · intro o ho
      rcases List.mem_append.mp ho with hmem | hmem
      · exact h7 o hmem
      · rcases List.mem_singleton.mp hmem with rfl
        simp [outcomeOf, hbuild, hinvoke]

/-- Every reachable state satisfies the invariant. -/
theorem reachable_loopInv {I P R T E : Type} {build : I → Except E (P × T)}
    {invoke : P → Except E R} {limit : Nat} {inputs : List I}
    {s : LoopState I P R T E} (h : Reachable build invoke limit inputs s) :
    LoopInv build invoke limit inputs s := by
  induction h with
  | refl => exact loopInv_init build invoke limit inputs
  | tail hsteps hstep ih => exact loopInv_step ih hstep

/-- Processing a single record to completion under the sequential schedule:
spawn, settle the build, settle the invocation. -/
theorem seq_chunk {I P R T E : Type} (build : I → Except E (P × T))
    (invoke : P → Except E R) {limit : Nat} (hlim : 0 < limit) (x : I)
    (pending : List I) (stats : RunStats) (log : List (OutcomeRecord I P R T E)) :
    Relation.ReflTransGen (LoopStep build invoke limit)
      ⟨x :: pending, [], stats, log⟩
      ⟨pending, [], statsStep build invoke stats x,
       log ++ [outcomeOf build invoke x]⟩ := by
  refine Relation.ReflTransGen.head (LoopStep.spawn x pending [] stats log hlim) ?_
  cases hb : build x with
  | error e =>
    have hstep2 := @LoopStep.buildErr I P R T E build invoke limit x e pending [] []
      { stats with concurrent := stats.concurrent + 1, attempted := stats.attempted + 1 }
      log hb
    have h := Relation.ReflTransGen.single hstep2
    convert h using 2
    all_goals simp [statsStep, outcomeOf, hb]
  | ok pt =>
    obtain ⟨p, t⟩ := pt
    refine Relation.ReflTransGen.head
      (@LoopStep.buildOk I P R T E build invoke limit x p t pending [] []
        { stats with concurrent := stats.concurrent + 1, attempted := stats.attempted + 1 }
        log hb) ?_
    cases hi : invoke p with
    | ok r =>
      have hstep3 := @LoopStep.invokeOk I P R T E build invoke limit x p t r pending [] []
        { stats with concurrent := stats.concurrent + 1, attempted := stats.attempted + 1 }
        log hi
      have h := Relation.ReflTransGen.single hstep3
      convert h using 2
      all_goals simp [statsStep, outcomeOf, hb, hi]
    | error e =>
      have hstep3 := @LoopStep.invokeErr I P R T E build invoke limit x p t e pending [] []
        { stats with concurrent := stats.concurrent + 1, attempted := stats.attempted + 1 }
        log hi
      have h := Relation.ReflTransGen.single hstep3
      convert h using 2
      all_goals simp [statsStep, outcomeOf, hb, hi]

/-- The sequential schedule drains any pending list. -/
theorem seq_run {I P R T E : Type} (build : I → Except E (P × T))
    (invoke : P → Except E R) {limit : Nat} (hlim : 0 < limit) :
    ∀ (l : List I) (stats : RunStats) (log : List (OutcomeRecord I P R T E)),
    Relation.ReflTransGen (LoopStep build invoke limit)
      ⟨l, [], stats, log⟩
      ⟨[], [], l.foldl (statsStep build invoke) stats,
       log ++ l.map (outcomeOf build invoke)⟩ := by
  intro l
  induction l with
  | nil =>
    intro stats log
    simpa using Relation.ReflTransGen.refl
  | cons x xs ih =>
    intro stats log
    refine (seq_chunk build invoke hlim x xs stats log).trans ?_
    have h := ih (statsStep build invoke stats x) (log ++ [outcomeOf build invoke x])
    have hEq : (log ++ [outcomeOf build invoke x]) ++ xs.map (outcomeOf build invoke) =
        log ++ (x :: xs).map (outcomeOf build invoke) := by simp
    exact hEq ▸ h

/-- The sequential schedule reaches `seqFinalState`, which is a completed
state. -/
theorem seqFinalState_reachable {I P R T E : Type} (build : I → Except E (P × T))
    (invoke : P → Except E R) {limit : Nat} (hlim : 0 < limit) (inputs : List I) :
    Reachable build invoke limit inputs (seqFinalState build invoke inputs) ∧
      Completed (seqFinalState build invoke inputs) :=
  ⟨seq_run build invoke hlim inputs initStats [], rfl, rfl⟩

/-- Whenever `process` raises, the upload options it hands back are exactly the
ones it was given: no partial metadata is ever written. -/
theorem process_error_preserves (structureFields? : Option (List MetadataField))
    (jsDateToIso : String → Option String) (upload_options : UploadOptions)
    (input_fields : Fields) (options : Option ProcessOptions) (e : MapperError)
    (uo' : UploadOptions)
    (h : process structureFields? jsDateToIso upload_options input_fields options =
      .error (e, uo')) : uo' = upload_options := by
  unfold process at h
  repeat' split at h
  all_goals simp_all

/-- Resolving (any case/whitespace variant of) an active option's canonical
identifier returns that identifier, provided no other active option's
identifier collides with it case-insensitively. -/
theorem lookup_roundtrip_id (f : MetadataField) (opt : DatasourceValue)
    (hmem : opt ∈ f.datasource) (hact : opt.state = "active")
    (hid : ∀ o ∈ f.datasource, o.state = "active" →
      jsToLower o.external_id = jsToLower opt.external_id →
      o.external_id = opt.external_id)
    (s : String) (hs : jsToLower (jsTrim s) = jsToLower opt.external_id) :
    lookupMetadataValueExternalId f s = .ok opt.external_id := by
  unfold lookupMetadataValueExternalId
  cases hfind : f.datasource.find?
      (fun v => v.state == "active" && jsToLower v.external_id == jsToLower (jsTrim s)) with
  | some v =>
    have hpred := List.find?_some hfind
    have hvmem := List.mem_of_find?_eq_some hfind
    simp only [Bool.and_eq_true, beq_iff_eq] at hpred
    have h2 : jsToLower v.external_id = jsToLower opt.external_id := hpred.2.trans hs
    simp [hid v hvmem hpred.1 h2]
  | none =>
    exfalso
    have hnone := List.find?_eq_none.mp hfind opt hmem
    simp only [Bool.and_eq_true, beq_iff_eq, not_and] at hnone
    exact hnone hact hs.symm

/-- Resolving (any case/whitespace variant of) an active option's label
returns that option's canonical identifier, provided every active option
whose identifier or label collides with that label case-insensitively
carries the same identifier. -/
theorem lookup_roundtrip_label (f : MetadataField) (opt : DatasourceValue)
    (hmem : opt ∈ f.datasource) (hact : opt.state = "active")
    (hcross : ∀ o ∈ f.datasource, o.state = "active" →
      jsToLower o.external_id = jsToLower opt.value → o.external_id = opt.external_id)
    (hlab : ∀ o ∈ f.datasource, o.state = "active" →
      jsToLower o.value = jsToLower opt.value → o.external_id = opt.external_id)
    (s : String) (hs : jsToLower (jsTrim s) = jsToLower opt.value) :
    lookupMetadataValueExternalId f s = .ok opt.external_id := by
  unfold lookupMetadataValueExternalId
  cases hfind : f.datasource.find?
      (fun v => v.state == "active" && jsToLower v.external_id == jsToLower (jsTrim s)) with
  | some v =>
    have hpred := List.find?_some hfind
    have hvmem := List.mem_of_find?_eq_some hfind
    simp only [Bool.and_eq_true, beq_iff_eq] at hpred
    rw [hs] at hpred
    simp [hcross v hvmem hpred.1 hpred.2]
  | none =>
    cases hfind2 : f.datasource.find?
        (fun v => v.state == "active" && jsToLower v.value == jsToLower (jsTrim s)) with
    | some v =>
      have hpred := List.find?_some hfind2
      have hvmem := List.mem_of_find?_eq_some hfind2
      simp only [Bool.and_eq_true, beq_iff_eq] at hpred
      rw [hs] at hpred
      simp [hlab v hvmem hpred.1 hpred.2]
    | none =>
      exfalso
      have hnone := List.find?_eq_none.mp hfind2 opt hmem
      simp only [Bool.and_eq_true, beq_iff_eq, not_and] at hnone
      exact hnone hact hs.symm

/-- A throwing map succeeds exactly on pointwise-successful inputs, preserving
order. -/
theorem mapExcept_forall₂ {α β ε : Type} (f : α → Except ε β) :
    ∀ {l : List α} {rs : List β},
    List.Forall₂ (fun a b => f a = .ok b) l rs → mapExcept f l = .ok rs := by
  intro l rs h
  induction h with
  | nil => rfl
  | cons hab _ ih =>
    simp [mapExcept, hab, ih]

/-- A throwing map stops at the first failing element and propagates exactly
its error. -/
theorem mapExcept_first_error {α β ε : Type} (f : α → Except ε β) (p : α)
    (l2 : List α) (e : ε) (he : f p = .error e) :
    ∀ (l1 : List α), (∀ q ∈ l1, ∃ r, f q = .ok r) →
    mapExcept f (l1 ++ p :: l2) = .error e := by
  intro l1
  induction l1 with
  | nil =>
    intro _
    simp [mapExcept, he]
  | cons q qs ih =>
    intro hok
    obtain ⟨r, hr⟩ := hok q (List.mem_cons_self q qs)
    have hrest := ih (fun q' hq' => hok q' (List.mem_cons_of_mem q hq'))
    simp [mapExcept, hr, hrest]

/-- The only error `#lookupMetadataValueExternalId` raises names the trimmed
option and the target field. -/
theorem lookup_error_shape (f : MetadataField) (s : String) (e : MapperError)
    (h : lookupMetadataValueExternalId f s = .error e) :
    e = .invalidDataSourceOption (jsTrim s) f.external_id := by
  unfold lookupMetadataValueExternalId at h
  repeat' split at h
  all_goals simp_all

/-- A `set`-typed value resolves to the ordered list of the resolutions of its
comma-separated parts. -/
theorem processMetadataValue_set_ok (jsDateToIso : String → Option String)
    (f : MetadataField) (value : String) (rs : List String) (hty : f.type = "set")
    (h : List.Forall₂ (fun part r => lookupMetadataValueExternalId f part = .ok r)
      (jsSplit value ',') rs) :
    processMetadataValue jsDateToIso f value = .ok (.list rs) := by
  simp [processMetadataValue, hty, mapExcept_forall₂ _ h]

/-- A `set`-typed value whose first unresolvable comma-separated part is `p`
raises exactly the datasource error naming `p` (trimmed); parts after `p` are
not consulted. -/
theorem processMetadataValue_set_error (jsDateToIso : String → Option String)
    (f : MetadataField) (value : String) (l1 l2 : List String) (p : String)
    (hty : f.type = "set") (hsplit : jsSplit value ',' = l1 ++ p :: l2)
    (hok : ∀ q ∈ l1, ∃ r, lookupMetadataValueExternalId f q = .ok r)
    (he : lookupMetadataValueExternalId f p =
      .error (.invalidDataSourceOption (jsTrim p) f.external_id)) :
    processMetadataValue jsDateToIso f value =
      .error (.invalidDataSourceOption (jsTrim p) f.external_id) := by
  simp [processMetadataValue, hty, hsplit,
    mapExcept_first_error (lookupMetadataValueExternalId f) p l2 _ he l1 hok]

/-- On a successful legacy `process` run, the keys surviving in the (mutated)
input-fields object are exactly the ignored keys and the keys that match no
schema field: every recognised key was deleted. -/
theorem legacy_processFields_surviving (structureFields : List MetadataField)
    (jsDateToIso : String → Option String) (fieldsToIgnore : List String) :
    ∀ (fs : Fields) (md md' : Metadata) (fs' : Fields),
    LegacyMapper.processFields (some structureFields) jsDateToIso fieldsToIgnore fs md =
      .ok (md', fs') →
    fs' = fs.filter (fun kv => fieldsToIgnore.contains kv.1 ||
      (LegacyMapper.lookupFieldSchema structureFields kv.1).isNone) := by
  intro fs
  induction fs with
  | nil =>
    intro md md' fs' h
    simp only [LegacyMapper.processFields, Except.ok.injEq, Prod.mk.injEq] at h
    simp [← h.2]
  | cons kv rest ih =>
    intro md md' fs' h
    obtain ⟨k, v⟩ := kv
    simp only [LegacyMapper.processFields] at h
    repeat' split at h
    all_goals try (simp only [Except.ok.injEq, Prod.mk.injEq] at h)
    all_goals first
    | exact ih _ _ _ h
    | (rw [ih _ _ _ h]; simp_all [List.filter_cons])
    | (rename_i heq; obtain ⟨h1, h2⟩ := h; subst h2; rw [ih _ _ _ heq]; simp_all [List.filter_cons])
    | simp_all [List.filter_cons]

/-- The outcome record always carries its own input. -/
theorem outcomeOf_input {I P R T E : Type} (build : I → Except E (P × T))
    (invoke : P → Except E R) (x : I) :
    (outcomeOf build invoke x).input = x := by
  unfold outcomeOf
  repeat' split
  all_goals rfl

/-- Status of a computed outcome: exactly `MIGRATED` on the all-success path,
exactly `FAILED` otherwise, and `MIGRATED` is equivalent to both oracles
succeeding. -/
theorem outcomeOf_status_spec {I P R T E : Type} (build : I → Except E (P × T))
    (invoke : P → Except E R) (x : I) :
    ((outcomeOf build invoke x).status = "MIGRATED" ∨
      (outcomeOf build invoke x).status = "FAILED") ∧
    ((outcomeOf build invoke x).status = "MIGRATED" ↔
      ∃ p t r, build x = .ok (p, t) ∧ invoke p = .ok r) := by
  cases hb : build x with
  | error e => simp [outcomeOf, hb]
  | ok pt =>
    obtain ⟨p, t⟩ := pt
    cases hi : invoke p with
    | ok r => simp [outcomeOf, hb, hi]
    | error e => simp [outcomeOf, hb, hi]

/-- A computed outcome is `FAILED` exactly when an error is attached. -/
theorem outcomeOf_failed_iff {I P R T E : Type} (build : I → Except E (P × T))
    (invoke : P → Except E R) (x : I) :
    ((outcomeOf build invoke x).status = "FAILED" ↔
      ((outcomeOf build invoke x).err).isSome) := by
  cases hb : build x with
  | error e => simp [outcomeOf, hb]
  | ok pt =>
    obtain ⟨p, t⟩ := pt
    cases hi : invoke p with
    | ok r => simp [outcomeOf, hb, hi]
    | error e => simp [outcomeOf, hb, hi]

/-! Claim theorems. -/

/-- C1 (exactly-one-outcome): for every finite input sequence of N records and
every concurrency limit >= 1, a completed run writes exactly N outcome records
to the recorder, and their inputs are — as a multiset — exactly the consumed
input records: one per record, none dropped, none recorded twice. -/
theorem c1_exactly_one_outcome {I P R T E : Type} (build : I → Except E (P × T))
    (invoke : P → Except E R) (limit : Nat) (inputs : List I)
    (s : LoopState I P R T E) (hlim : 1 ≤ limit)
    (hreach : Reachable build invoke limit inputs s) (hdone : Completed s) :
    s.log.length = inputs.length ∧
      ((s.log.map OutcomeRecord.input : List I) : Multiset I) =
        (inputs : Multiset I) := by
  obtain ⟨h1, -⟩ := reachable_loopInv hreach
  obtain ⟨hp, hr⟩ := hdone
  rw [hp, hr] at h1
  simp only [List.map_nil, List.nil_append] at h1
  refine ⟨?_, h1⟩
  have hcard := congrArg Multiset.card h1
  simpa using hcard

/-- C1 witness: a completed sequential two-record run under limit 1. -/
theorem c1_exactly_one_outcome_witness :
    (1 ≤ 1) ∧
    Reachable demoBuild demoInvoke 1 ["r1", "r2"]
      (seqFinalState demoBuild demoInvoke ["r1", "r2"]) ∧
    Completed (seqFinalState demoBuild demoInvoke ["r1", "r2"]) ∧
    ((seqFinalState demoBuild demoInvoke ["r1", "r2"]).log.length = 2 ∧
      (((seqFinalState demoBuild demoInvoke ["r1", "r2"]).log.map
          OutcomeRecord.input : List String) : Multiset String) =
        ((["r1", "r2"] : List String) : Multiset String)) :=
  ⟨le_refl 1,
   (seqFinalState_reachable demoBuild demoInvoke Nat.one_pos ["r1", "r2"]).1,
   (seqFinalState_reachable demoBuild demoInvoke Nat.one_pos ["r1", "r2"]).2,
   c1_exactly_one_outcome demoBuild demoInvoke 1 ["r1", "r2"] _ (le_refl 1)
     (seqFinalState_reachable demoBuild demoInvoke Nat.one_pos ["r1", "r2"]).1
     (seqFinalState_reachable demoBuild demoInvoke Nat.one_pos ["r1", "r2"]).2⟩

/-- C2 (concurrency bound): in every state a run can reach — so at every
instant, even transiently — no more than `limit` per-record processing
operations (payload build or remote invocation) are in flight. -/
theorem c2_concurrency_bound {I P R T E : Type} (build : I → Except E (P × T))
    (invoke : P → Except E R) (limit : Nat) (inputs : List I)
    (s : LoopState I P R T E) (hlim : 1 ≤ limit)
    (hreach : Reachable build invoke limit inputs s) :
    s.running.length ≤ limit :=
  (reachable_loopInv hreach).2.1

/-- C2 witness: after pulling the first of two records under limit 1, exactly
one operation is in flight, within the bound. -/
theorem c2_concurrency_bound_witness :
    (1 ≤ 1) ∧
    Reachable demoBuild demoInvoke 1 ["r1", "r2"]
      ⟨["r2"], [⟨"r1", TaskPhase.building⟩], ⟨1, 1, 0, 0⟩, []⟩ ∧
    (⟨["r2"], [⟨"r1", TaskPhase.building⟩], ⟨1, 1, 0, 0⟩, []⟩ :
      LoopState String String String String String).running.length ≤ 1 := by
  have hstep : Reachable demoBuild demoInvoke 1 ["r1", "r2"]
      ⟨["r2"], [⟨"r1", TaskPhase.building⟩], ⟨1, 1, 0, 0⟩, []⟩ :=
    Relation.ReflTransGen.single
      (@LoopStep.spawn String String String String String demoBuild demoInvoke 1
        "r1" ["r2"] [] initStats [] Nat.one_pos)
  exact ⟨le_refl 1, hstep,
    c2_concurrency_bound demoBuild demoInvoke 1 ["r1", "r2"] _ (le_refl 1) hstep⟩

/-- C3 (per-record error isolation): every logged outcome is exactly what the
iteratee body computes for its record — any build or invoke error is caught
and reflected as that record's `FAILED` outcome with the error attached,
never escaping the loop — and for every input sequence a completed run exists
whose aggregate statistics are reported (attempted equals N and succeeded
plus failed equals N), even when every record fails. -/
theorem c3_error_isolation {I P R T E : Type} (build : I → Except E (P × T))
    (invoke : P → Except E R) (limit : Nat) (inputs : List I) (hlim : 1 ≤ limit) :
    (∀ s, Reachable build invoke limit inputs s → ∀ o ∈ s.log,
      o = outcomeOf build invoke o.input ∧
        (o.status = "FAILED" ↔ (o.err).isSome)) ∧
    (∃ s, Reachable build invoke limit inputs s ∧ Completed s ∧
      s.stats.attempted = (inputs.length : Int) ∧
      s.stats.succeeded + s.stats.failed = (inputs.length : Int) ∧
      s.log.length = inputs.length) := by
  constructor
  · intro s hreach o ho
    have h7 := (reachable_loopInv hreach).2.2.2.2.2.2
    have ho7 := h7 o ho
    refine ⟨ho7, ?_⟩
    rw [congrArg OutcomeRecord.status ho7, congrArg OutcomeRecord.err ho7]
    exact outcomeOf_failed_iff build invoke o.input
  · obtain ⟨hre, hc⟩ := seqFinalState_reachable build invoke hlim inputs
    obtain ⟨-, -, -, h4, h5, -, -⟩ := reachable_loopInv hre
    refine ⟨_, hre, hc, ?_, ?_, ?_⟩
    · rw [h4]
      simp [seqFinalState]
    · rw [h5]
      simp [seqFinalState]
    · simp [seqFinalState]

/-- C3 witness: two records, every build failing, limit 1: the two outcomes
are the computed `FAILED` outcomes and a completed run with full statistics
exists. -/
theorem c3_error_isolation_witness :
    (1 ≤ 1) ∧
    ((∀ s, Reachable failingBuild demoInvoke 1 ["r1", "r2"] s → ∀ o ∈ s.log,
      o = outcomeOf failingBuild demoInvoke o.input ∧
        (o.status = "FAILED" ↔ (o.err).isSome)) ∧
    (∃ s, Reachable failingBuild demoInvoke 1 ["r1", "r2"] s ∧ Completed s ∧
      s.stats.attempted = ((["r1", "r2"] : List String).length : Int) ∧
      s.stats.succeeded + s.stats.failed = ((["r1", "r2"] : List String).length : Int) ∧
      s.log.length = (["r1", "r2"] : List String).length)) :=
  ⟨le_refl 1, c3_error_isolation failingBuild demoInvoke 1 ["r1", "r2"] (le_refl 1)⟩

/-- C10 (in-flight counter balance): in every reachable state the `concurrent`
counter equals the number of in-flight operations — it is incremented once
when a record starts and decremented once after its outcome is appended — so
it is never negative, and it is 0 in every completed state. -/
theorem c10_inflight_counter {I P R T E : Type} (build : I → Except E (P × T))
    (invoke : P → Except E R) (limit : Nat) (inputs : List I)
    (s : LoopState I P R T E)
    (hreach : Reachable build invoke limit inputs s) :
    s.stats.concurrent = (s.running.length : Int) ∧
      0 ≤ s.stats.concurrent ∧
      (Completed s → s.stats.concurrent = 0) := by
  have h3 := (reachable_loopInv hreach).2.2.1
  refine ⟨h3, by rw [h3]; exact Int.natCast_nonneg _, ?_⟩
  intro hdone
  rw [h3, hdone.2]
  rfl

/-- C10 witness: the counter facts at the completed sequential run on two
records. -/
theorem c10_inflight_counter_witness :
    Reachable demoBuild demoInvoke 1 ["r1", "r2"]
      (seqFinalState demoBuild demoInvoke ["r1", "r2"]) ∧
    ((seqFinalState demoBuild demoInvoke ["r1", "r2"]).stats.concurrent =
      (((seqFinalState demoBuild demoInvoke ["r1", "r2"]).running.length : Nat) : Int) ∧
      0 ≤ (seqFinalState demoBuild demoInvoke ["r1", "r2"]).stats.concurrent ∧
      (Completed (seqFinalState demoBuild demoInvoke ["r1", "r2"]) →
        (seqFinalState demoBuild demoInvoke ["r1", "r2"]).stats.concurrent = 0)) :=
  ⟨(seqFinalState_reachable demoBuild demoInvoke Nat.one_pos ["r1", "r2"]).1,
   c10_inflight_counter demoBuild demoInvoke 1 ["r1", "r2"] _
     (seqFinalState_reachable demoBuild demoInvoke Nat.one_pos ["r1", "r2"]).1⟩

/-- C7 counterexample: a completed one-record run whose record was processed
without error logs the status string `MIGRATED` — not `SUCCEEDED` as the
claim states. -/
theorem c7_status_domain_counterexample :
    Reachable demoBuild demoInvoke 1 ["r1"]
      (seqFinalState demoBuild demoInvoke ["r1"]) ∧
    Completed (seqFinalState demoBuild demoInvoke ["r1"]) ∧
    (seqFinalState demoBuild demoInvoke ["r1"]).log.map OutcomeRecord.status =
      ["MIGRATED"] ∧
    ("MIGRATED" : String) ≠ "SUCCEEDED" :=
  ⟨(seqFinalState_reachable demoBuild demoInvoke Nat.one_pos ["r1"]).1,
   (seqFinalState_reachable demoBuild demoInvoke Nat.one_pos ["r1"]).2,
   rfl, by decide⟩

/-- C7 (amended): every outcome record carries status exactly `MIGRATED` when
the record was processed without error and exactly `FAILED` otherwise; the
status field never holds any other value. -/
theorem c7_status_domain {I P R T E : Type} (build : I → Except E (P × T))
    (invoke : P → Except E R) (limit : Nat) (inputs : List I)
    (s : LoopState I P R T E)
    (hreach : Reachable build invoke limit inputs s) :
    ∀ o ∈ s.log, (o.status = "MIGRATED" ∨ o.status = "FAILED") ∧
      (o.status = "MIGRATED" ↔
        ∃ p t r, build o.input = .ok (p, t) ∧ invoke p = .ok r) := by
  intro o ho
  have ho7 := (reachable_loopInv hreach).2.2.2.2.2.2 o ho
  rw [congrArg OutcomeRecord.status ho7]
  have hin := outcomeOf_input build invoke o.input
  have := outcomeOf_status_spec build invoke o.input
  exact this

/-- C7 witness: the amended status characterisation at a concrete completed
run. -/
theorem c7_status_domain_witness :
    Reachable demoBuild demoInvoke 1 ["r1"]
      (seqFinalState demoBuild demoInvoke ["r1"]) ∧
    (∀ o ∈ (seqFinalState demoBuild demoInvoke ["r1"]).log,
      (o.status = "MIGRATED" ∨ o.status = "FAILED") ∧
      (o.status = "MIGRATED" ↔
        ∃ p t r, demoBuild o.input = .ok (p, t) ∧ demoInvoke p = .ok r)) :=
  ⟨(seqFinalState_reachable demoBuild demoInvoke Nat.one_pos ["r1"]).1,
   c7_status_domain demoBuild demoInvoke 1 ["r1"] _
     (seqFinalState_reachable demoBuild demoInvoke Nat.one_pos ["r1"]).1⟩

/-- C4 (mapping atomicity): whenever `process` raises any error — validation
error or value-resolution error, including an unresolvable select option
partway through a record — the payload it was given is completely unmodified:
no partial metadata map is ever written. -/
theorem c4_mapping_atomicity (structureFields? : Option (List MetadataField))
    (jsDateToIso : String → Option String) (upload_options : UploadOptions)
    (input_fields : Fields) (options : Option ProcessOptions) (e : MapperError)
    (uo' : UploadOptions)
    (h : process structureFields? jsDateToIso upload_options input_fields options =
      .error (e, uo')) : uo' = upload_options :=
  process_error_preserves structureFields? jsDateToIso upload_options input_fields
    options e uo' h

/-- C4 witness: a multi-select record whose second option is unresolvable
fails partway through — after the first option already resolved — and the
payload (which carried pre-existing metadata) comes back exactly as passed. -/
theorem c4_mapping_atomicity_witness :
    (process (some mockMetadataStructure) noDate uoFixture
      [("SMD MSL", "MSL Option A, Bogus")]
      (some ⟨some [("SMD MSL", "smd_msl")], none⟩) =
      .error (.invalidDataSourceOption "Bogus" "smd_msl", uoFixture)) ∧
    uoFixture = uoFixture :=
  ⟨rfl,
   c4_mapping_atomicity (some mockMetadataStructure) noDate uoFixture
     [("SMD MSL", "MSL Option A, Bogus")]
     (some ⟨some [("SMD MSL", "smd_msl")], none⟩)
     (.invalidDataSourceOption "Bogus" "smd_msl") uoFixture rfl⟩

/-- C9 counterexample: an empty (but present) mapping configuration is
accepted by `process` — no `InvalidMappingError` is raised, contrary to the
claim, because the JS guard `!options.mapping` is false for an empty object
and `#validateMapping` never checks emptiness. -/
theorem c9_empty_mapping_counterexample :
    process (some mockMetadataStructure) noDate uoFixture []
      (some ⟨some [], some ","⟩) = .ok uoFixture := rfl

/-- C9 (amended): `process` raises `InvalidMappingError` whenever the mapping
configuration is absent (no options object, or no `mapping` property), before
resolving or writing anything; an empty mapping is accepted and processes no
pairs, returning the payload unchanged. -/
theorem c9_mapping_required (structureFields? : Option (List MetadataField))
    (jsDateToIso : String → Option String) (upload_options : UploadOptions)
    (input_fields : Fields) :
    process structureFields? jsDateToIso upload_options input_fields none =
      .error (.invalidMappingRequired, upload_options) ∧
    (∀ sep, process structureFields? jsDateToIso upload_options input_fields
      (some ⟨none, sep⟩) = .error (.invalidMappingRequired, upload_options)) ∧
    (∀ structureFields sep, process (some structureFields) jsDateToIso
      upload_options input_fields (some ⟨some [], sep⟩) = .ok upload_options) := by
  refine ⟨rfl, fun sep => rfl, fun structureFields sep => ?_⟩
  obtain ⟨pid, tg, md⟩ := upload_options
  cases md with
  | none => rfl
  | some m =>
    cases m with
    | nil => rfl
    | cons a l =>
      simp [process, validateMapping, firstDuplicateExternalId, firstMissingColumn,
        firstUnknownExternalId, processPairs]

/-- C5 counterexample: with a configured separator of `;` and a multi-select
value whose semicolon-separated parts each resolve individually, `process`
does not split on the configured separator: it splits on the hardcoded comma,
fails to resolve the whole string as one option, and raises — where the claim
requires the resolved two-element list. -/
theorem c5_multiselect_counterexample :
    lookupMetadataValueExternalId mockMslField "MSL Option A" = .ok "msl_option_a" ∧
    lookupMetadataValueExternalId mockMslField "MSL Option B" = .ok "msl_option_b" ∧
    process (some mockMetadataStructure) noDate uoFixture
      [("SMD MSL", "MSL Option A; MSL Option B")]
      (some ⟨some [("SMD MSL", "smd_msl")], some ";"⟩) =
      .error (.invalidDataSourceOption "MSL Option A; MSL Option B" "smd_msl",
        uoFixture) :=
  ⟨rfl, rfl, rfl⟩

/-- C5 (amended): for a multi-select field the mapper splits the value on the
hardcoded comma (any configured separator is ignored), resolves each part
independently (each part being trimmed inside the resolution), produces the
ordered list of resolutions in input order, stops at the first unresolvable
part raising the datasource error naming exactly that part (trimmed), and on
any such error `process` leaves the payload completely unmodified. -/
theorem c5_multiselect_resolution (jsDateToIso : String → Option String)
    (f : MetadataField) (value : String) (hty : f.type = "set") :
    (∀ rs, List.Forall₂ (fun part r => lookupMetadataValueExternalId f part = .ok r)
        (jsSplit value ',') rs →
      processMetadataValue jsDateToIso f value = .ok (.list rs)) ∧
    (∀ l1 p l2, jsSplit value ',' = l1 ++ p :: l2 →
      (∀ q ∈ l1, ∃ r, lookupMetadataValueExternalId f q = .ok r) →
      lookupMetadataValueExternalId f p =
        .error (.invalidDataSourceOption (jsTrim p) f.external_id) →
      processMetadataValue jsDateToIso f value =
        .error (.invalidDataSourceOption (jsTrim p) f.external_id)) ∧
    (∀ structureFields? uo ifs opts e uo',
      process structureFields? jsDateToIso uo ifs opts = .error (e, uo') →
      uo' = uo) :=
  ⟨fun rs h => processMetadataValue_set_ok jsDateToIso f value rs hty h,
   fun l1 p l2 hs hok he =>
     processMetadataValue_set_error jsDateToIso f value l1 l2 p hty hs hok he,
   fun structureFields? uo ifs opts e uo' h =>
     process_error_preserves structureFields? jsDateToIso uo ifs opts e uo' h⟩

/-- C5 witness: the spec's scenario B — `MSL Option C, MSL Option A` resolves
to the ordered identifier list following input order, not schema order. -/
theorem c5_multiselect_resolution_witness :
    (mockMslField.type = "set") ∧
    processMetadataValue noDate mockMslField "MSL Option C, MSL Option A" =
      .ok (.list ["msl_option_c", "msl_option_a"]) :=
  ⟨rfl,
   (c5_multiselect_resolution noDate mockMslField "MSL Option C, MSL Option A" rfl).1
     ["msl_option_c", "msl_option_a"]
     (List.Forall₂.cons rfl (List.Forall₂.cons rfl List.Forall₂.nil))⟩

/-- C6 counterexample: with two active options sharing the label `Same` (the
schema invariant only requires identifiers to be unique), resolving the second
option's exact label returns the FIRST option's identifier, so the round-trip
fails for the second option as the claim universally states it. -/
theorem c6_roundtrip_counterexample :
    (⟨"opt_b", "Same", "active"⟩ : DatasourceValue) ∈ dupLabelField.datasource ∧
    lookupMetadataValueExternalId dupLabelField "Same" = .ok "opt_a" ∧
    ("opt_a" : String) ≠ "opt_b" :=
  ⟨by decide, rfl, by decide⟩

/-- C6 (amended): for every select field and every active option, resolving
any case variant of the option's canonical identifier yields that identifier
provided no other active option's identifier collides with it
case-insensitively; and resolving any case variant of its label yields that
identifier provided additionally that no active option's identifier and no
other active option's label collides with the label case-insensitively —
via the two-pass match (identifiers first, labels only if no identifier
matched, inactive options never eligible). -/
theorem c6_select_roundtrip (f : MetadataField) (opt : DatasourceValue)
    (hmem : opt ∈ f.datasource) (hact : opt.state = "active")
    (hid : ∀ o ∈ f.datasource, o.state = "active" →
      jsToLower o.external_id = jsToLower opt.external_id →
      o.external_id = opt.external_id) :
    (∀ s, jsToLower (jsTrim s) = jsToLower opt.external_id →
      lookupMetadataValueExternalId f s = .ok opt.external_id) ∧
    ((∀ o ∈ f.datasource, o.state = "active" →
        jsToLower o.external_id = jsToLower opt.value →
        o.external_id = opt.external_id) →
      (∀ o ∈ f.datasource, o.state = "active" →
        jsToLower o.value = jsToLower opt.value → o.external_id = opt.external_id) →
      ∀ s, jsToLower (jsTrim s) = jsToLower opt.value →
        lookupMetadataValueExternalId f s = .ok opt.external_id) :=
  ⟨fun s hs => lookup_roundtrip_id f opt hmem hact hid s hs,
   fun hcross hlab s hs => lookup_roundtrip_label f opt hmem hact hcross hlab s hs⟩

/-- C6 witness: on the repository's own mock single-select field, both the
upper-cased identifier and a case-mangled label of the active option B
resolve to `ssl_option_b`. -/
theorem c6_select_roundtrip_witness :
    (⟨"ssl_option_b", "SSL Option B", "active"⟩ : DatasourceValue) ∈
      mockSslField.datasource ∧
    lookupMetadataValueExternalId mockSslField "SSL_OPTION_B" = .ok "ssl_option_b" ∧
    lookupMetadataValueExternalId mockSslField "sSL oPTION b" = .ok "ssl_option_b" :=
  ⟨by decide,
   (c6_select_roundtrip mockSslField ⟨"ssl_option_b", "SSL Option B", "active"⟩
     (by decide) rfl (by decide)).1 "SSL_OPTION_B" (by decide),
   (c6_select_roundtrip mockSslField ⟨"ssl_option_b", "SSL Option B", "active"⟩
     (by decide) rfl (by decide)).2 (by decide) (by decide) "sSL oPTION b" (by decide)⟩

/-- C8 counterexample: the `__plugins` mapper's `process` deletes every input
key it recognises from the input-fields object (`delete remaining_fields[key]`
on the aliased object; its own unit test asserts the record ends up empty):
the input record `{"SMD SSL": "SSL Option B"}` comes back empty, mutated. -/
theorem c8_immutability_counterexample :
    LegacyMapper.process (some mockMetadataStructure) noDate
      ⟨"sample_public_id", "tag_a", none⟩ [("SMD SSL", "SSL Option B")] [] =
      .ok (⟨"sample_public_id", "tag_a", some [("smd_ssl", .str "ssl_option_b")]⟩,
        []) ∧
    ([] : Fields) ≠ [("SMD SSL", "SSL Option B")] :=
  ⟨rfl, by decide⟩

/-- C8 (amended): the `part_004` mapper only reads the input record, but the
legacy `__plugins` mapper's `process` mutates it: on a successful run the
surviving keys are exactly the ignored keys and the keys matching no schema
field (by identifier or label, case-insensitively) — every recognised key is
removed, even when its value is blank. -/
theorem c8_input_record_mutation (structureFields : List MetadataField)
    (jsDateToIso : String → Option String) (fieldsToIgnore : List String)
    (upload_options : UploadOptions) (input_fields : Fields)
    (uo' : UploadOptions) (fields' : Fields)
    (h : LegacyMapper.process (some structureFields) jsDateToIso upload_options
      input_fields fieldsToIgnore = .ok (uo', fields')) :
    fields' = input_fields.filter (fun kv => fieldsToIgnore.contains kv.1 ||
      (LegacyMapper.lookupFieldSchema structureFields kv.1).isNone) := by
  unfold LegacyMapper.process at h
  split at h
  · exact absurd h (by simp)
  · split at h <;>
      (simp only [Except.ok.injEq, Prod.mk.injEq] at h;
       exact h.2 ▸ legacy_processFields_surviving structureFields jsDateToIso
         fieldsToIgnore input_fields _ _ _ (by assumption))

/-- C8 witness: a record with one recognised key, one unknown key and one
ignored key keeps exactly the latter two after the legacy mapper runs. -/
theorem c8_input_record_mutation_witness :
    (LegacyMapper.process (some mockMetadataStructure) noDate
      ⟨"sample_public_id", "tag_a", none⟩
      [("SMD SSL", "SSL Option B"), ("Unknown Column", "kept"),
       ("Skip Me", "also kept")] ["Skip Me"] =
      .ok (⟨"sample_public_id", "tag_a", some [("smd_ssl", .str "ssl_option_b")]⟩,
        [("Unknown Column", "kept"), ("Skip Me", "also kept")])) ∧
    [("Unknown Column", "kept"), ("Skip Me", "also kept")] =
      ([("SMD SSL", "SSL Option B"), ("Unknown Column", "kept"),
        ("Skip Me", "also kept")] : Fields).filter
        (fun kv => (["Skip Me"] : List String).contains kv.1 ||
          (LegacyMapper.lookupFieldSchema mockMetadataStructure kv.1).isNone) :=
  ⟨rfl,
   c8_input_record_mutation mockMetadataStructure noDate ["Skip Me"]
     ⟨"sample_public_id", "tag_a", none⟩
     [("SMD SSL", "SSL Option B"), ("Unknown Column", "kept"),
      ("Skip Me", "also kept")]
     ⟨"sample_public_id", "tag_a", some [("smd_ssl", .str "ssl_option_b")]⟩
     [("Unknown Column", "kept"), ("Skip Me", "also kept")] rfl⟩
